import Mathlib

/-!
Shallow embedding of the conversation-state and scheduling core of the
ui-plaster WhatsApp assistant, and proofs about it.

The embedding covers:
* the Redis-backed / in-memory conversation history store
  (`src/conversation/historyManager.ts`: `getHistory`, `addToHistory`,
  `flushConversation`);
* the meeting reminder scheduler
  (`src/calendar/reminders/scheduler.ts`: `processMeeting`);
* the opt-out phase of inbound message processing and `isOptedOut`
  (`src/optout/optOutManager.ts`, webhook handler `processMessage`);
* the outbound send retry policy (`src/wa/sendMessage.ts`:
  `sendTextMessage`);
* the inbound dedup cache (`processedMessages` /
  `cleanupProcessedMessages` / `processWebhook` in the webhook handler).

External I/O (Redis calls, HTTP, the AI completion) is modelled by
explicit outcome parameters: each store operation carries a fault word
saying whether the connection exists and whether the individual `get` /
`setex` call succeeds, and each outbound send carries its outcome.
Time is modelled in whole minutes (scheduler) or milliseconds (dedup).
-/

namespace UiPlaster

/-- A chat message as stored in conversation history (`ChatMessage` in
`src/types/normalized`): role, text content and timestamp (ms). -/
structure ChatMessage where
  role : String
  content : String
  timestamp : Nat
deriving Repr, DecidableEq

/-- Per-call fault injection for the Redis-backed history store:
`conn` models `getRedis()` returning a client, `getOk` whether the
`redis.get` inside `getHistory` succeeds, `setOk` whether the
`redis.setex` inside `addToHistory` succeeds. -/
structure StoreFault where
  conn : Bool
  getOk : Bool
  setOk : Bool
deriving Repr, DecidableEq

/-- All store calls succeed against a live Redis connection. -/
def goodFault : StoreFault := ⟨true, true, true⟩

/-- No Redis client at all (`getRedis()` returns null): every operation
uses the in-memory fallback. -/
def noConnFault : StoreFault := ⟨false, true, true⟩

/-- Redis connection is live and the read succeeds, but `redis.setex`
throws. -/
def setFailFault : StoreFault := ⟨true, true, false⟩

/-- The two backing stores for one user's conversation history:
`redisVal` is the value stored under the user's chat key in Redis
(`none` = key absent), `memVal` is the in-process fallback map's entry
for that user (`none` = no entry). All history keys are per user, so a
single user's slot suffices for the per-user claims. -/
structure UserStore where
  redisVal : Option (List ChatMessage)
  memVal : Option (List ChatMessage)
deriving Repr, DecidableEq

/-- Which backing store served an operation. -/
inductive Backend
  | redis
  | mem
deriving Repr, DecidableEq

/-- `getHistory` (historyManager.ts lines 95-118): when a Redis client
exists and the read succeeds, return the parsed stored list (or `[]`
when the key is absent); on a read error, or when there is no client,
return the in-memory fallback entry (or `[]`). The second component
records which backing store served the read. -/
def getHistory (f : StoreFault) (s : UserStore) : List ChatMessage × Backend :=
  if f.conn then
    if f.getOk then (s.redisVal.getD [], Backend.redis)
    else (s.memVal.getD [], Backend.mem)
  else (s.memVal.getD [], Backend.mem)

/-- The trim-to-max step of `addToHistory`: if the list exceeds
`maxH` (`config.maxHistoryMessages`), drop from the head until the
length is `maxH`. -/
def trimHistory (maxH : Nat) (h : List ChatMessage) : List ChatMessage :=
  if h.length > maxH then h.drop (h.length - maxH) else h

/-- Where `addToHistory` stored the appended message: whether it was
persisted to Redis, and how many copies were pushed into the in-memory
fallback entry. `memCopies` can be 2 because the JS array returned by
`getHistory`'s fallback branch is the same object as the map entry, so
the `history.push(message)` in the Redis branch already mutates the map
before the fall-through block pushes the message a second time. -/
structure AddOutcome where
  toRedis : Bool
  memCopies : Nat
deriving Repr, DecidableEq

/-- `addToHistory` (historyManager.ts lines 124-182). With a Redis
client: read via `getHistory`, push, trim, `setex`; on a `setex` error
fall through to the in-memory block (create-entry-if-absent, push,
trim in place). Without a client: the in-memory block directly.
The aliasing between `getHistory`'s fallback return value and the map
entry is modelled explicitly in the `getOk = false` branch. -/
def addToHistory (maxH : Nat) (f : StoreFault) (s : UserStore) (m : ChatMessage) :
    UserStore × AddOutcome :=
  if f.conn then
    if f.getOk then
      let h2 := trimHistory maxH (s.redisVal.getD [] ++ [m])
      if f.setOk then ({ s with redisVal := some h2 }, ⟨true, 0⟩)
      else
        ({ s with memVal := some (trimHistory maxH (s.memVal.getD [] ++ [m])) }, ⟨false, 1⟩)
    else
      match s.memVal with
      | some arr =>
        let h1 := arr ++ [m]
        if f.setOk then
          ({ redisVal := some (trimHistory maxH h1), memVal := some h1 }, ⟨true, 1⟩)
        else
          ({ s with memVal := some (trimHistory maxH (h1 ++ [m])) }, ⟨false, 2⟩)
      | none =>
        if f.setOk then ({ s with redisVal := some (trimHistory maxH [m]) }, ⟨true, 0⟩)
        else ({ s with memVal := some (trimHistory maxH [m]) }, ⟨false, 1⟩)
  else
    ({ s with memVal := some (trimHistory maxH (s.memVal.getD [] ++ [m])) }, ⟨false, 1⟩)

/-- A sequence of `addToHistory` calls, each with its own fault word,
threading the store state and collecting each call's outcome. -/
def runAppends (maxH : Nat) : UserStore → List (StoreFault × ChatMessage) →
    UserStore × List AddOutcome
  | s, [] => (s, [])
  | s, (f, m) :: rest =>
    let r := addToHistory maxH f s m
    let r2 := runAppends maxH r.1 rest
    (r2.1, r.2 :: r2.2)

/-- The last `k` elements of a list. -/
def lastN (k : Nat) (l : List ChatMessage) : List ChatMessage :=
  l.drop (l.length - k)

/-- A normalized inbound message as consumed by `flushConversation`
(text already resolved, optional media URL, timestamp). -/
structure NormalizedIncoming where
  text : String
  mediaUrl : Option String
  timestamp : Nat
deriving Repr, DecidableEq

/-- `formatMessageForHistory` (historyManager.ts): trimmed text when
present, otherwise a media placeholder, otherwise empty. -/
def formatMessageForHistory (msg : NormalizedIncoming) : String :=
  if msg.text ≠ "" then msg.text.trim
  else
    match msg.mediaUrl with
    | some u => "[מדיה: " ++ u ++ "]"
    | none => ""

/-- The apologetic fallback reply sent when the AI returns null. -/
def fallbackResponse : String := "מצטער, נתקלתי בקושי טכני זמני. אנא נסה שוב עוד רגע."

/-- `flushConversation` (historyManager.ts lines 188-237), with the AI
completion's result passed in (`none` models `askOpenAI` returning
null, per the external-interface contract). On `none`: no history
writes, a single fallback text is sent. On `some r`: each batch
message is appended as a user message, then the assistant response is
appended, and the response text is sent. Returns the store state and
the list of outbound text messages. -/
def flushConversation (maxH : Nat) (f : StoreFault) (s : UserStore)
    (batch : List NormalizedIncoming) (response : Option String) (nowTs : Nat) :
    UserStore × List String :=
  match response with
  | none => (s, [fallbackResponse])
  | some r =>
    let s1 := batch.foldl
      (fun st msg =>
        (addToHistory maxH f st ⟨"user", formatMessageForHistory msg, msg.timestamp⟩).1) s
    let s2 := (addToHistory maxH f s1 ⟨"assistant", r, nowTs⟩).1
    (s2, [r])

/-- The two idempotency flags of a scheduled item
(`meeting.flags` in `src/calendar/types`). -/
structure MeetingFlags where
  sentDayReminder : Bool
  sentBeforeReminder : Bool
deriving Repr, DecidableEq

/-- A scheduled item ("meeting"): its calendar day, its time of day in
whole minutes, and the two reminder flags. -/
structure Meeting where
  date : Nat
  timeMin : Nat
  flags : MeetingFlags
deriving Repr, DecidableEq

/-- Reminder configuration (`config.reminderDayOfMeetingTime` parsed to
minutes after midnight, `config.reminderMinutesBefore`,
`config.reminderWindowMinutes`). -/
structure ReminderCfg where
  dayOfMeetingTimeMin : Nat
  minutesBefore : Int
  windowMinutes : Int
deriving Repr, DecidableEq

/-- The default configuration: target 09:00, lead 45 minutes, window 3
minutes. -/
def defaultReminderCfg : ReminderCfg := ⟨540, 45, 3⟩

/-- Environment of one scheduler tick for one meeting: whether
`getRedis()` returns a client, the `isOptedOut` result for the
meeting's phone, the current instant in absolute minutes, the outcomes
of the two possible `sendTextMessage` calls, and whether the
`redis.set` writing back updated flags succeeds. -/
structure TickEnv where
  redisConn : Bool
  optedOut : Bool
  nowAbs : Nat
  sendDayOk : Bool
  sendBeforeOk : Bool
  persistOk : Bool
deriving Repr, DecidableEq

/-- Modelled from the spec: `timeUtils.ts` (diffInMinutes /
parseTimeToDate / formatDateYMD / getNowInIsrael) is not under src/.
Per the spec all trigger arithmetic is in whole minutes in one fixed
timezone, so instants are absolute minutes since an epoch midnight and
the signed difference in minutes is plain subtraction. -/
def diffInMinutes (a b : Nat) : Int := (a : Int) - (b : Int)

/-- The absolute instant (in minutes) of a meeting's scheduled moment
(`parseTimeToDate(meeting.time, meeting.date)`). -/
def meetingAbs (m : Meeting) : Nat := m.date * 1440 + m.timeMin

/-- Modelled from the spec: `formatDateYMD` maps an instant to its
calendar day; with instants in absolute minutes this is division by
1440. -/
def calendarDay (nowAbs : Nat) : Nat := nowAbs / 1440

/-- A reminder send attempt made during a tick. -/
inductive TriggerEvent
  | dayOf
  | leadTime
deriving Repr, DecidableEq

/-- The condition of Trigger A (day-of) in `processMeeting`:
`isSameDay && Math.abs(dayDiff) <= config.reminderWindowMinutes &&
!meeting.flags?.sentDayReminder`. -/
def dayCond (cfg : ReminderCfg) (env : TickEnv) (meeting : Meeting) : Prop :=
  calendarDay env.nowAbs = meeting.date ∧
  |diffInMinutes env.nowAbs (meeting.date * 1440 + cfg.dayOfMeetingTimeMin)| ≤
    cfg.windowMinutes ∧
  meeting.flags.sentDayReminder = false

instance (cfg : ReminderCfg) (env : TickEnv) (m : Meeting) : Decidable (dayCond cfg env m) := by
  unfold dayCond; infer_instance

/-- The Trigger A block of `processMeeting` (scheduler.ts lines
54-91): when the day-of condition holds, attempt the send; on success
set `sentDayReminder` (preserving `sentBeforeReminder`). -/
def stepDay (cfg : ReminderCfg) (env : TickEnv) (meeting : Meeting) :
    Meeting × List TriggerEvent :=
  if dayCond cfg env meeting then
    (if env.sendDayOk then
       { meeting with flags := ⟨true, meeting.flags.sentBeforeReminder⟩ }
     else meeting,
     [TriggerEvent.dayOf])
  else (meeting, [])

/-- The condition of Trigger B (lead-time) in `processMeeting`:
`diffMinutes <= config.reminderMinutesBefore && diffMinutes >=
config.reminderMinutesBefore - config.reminderWindowMinutes &&
!meeting.flags?.sentBeforeReminder`, evaluated on the meeting object
as left by the Trigger A block. -/
def beforeCond (cfg : ReminderCfg) (env : TickEnv) (m1 : Meeting) : Prop :=
  diffInMinutes (meetingAbs m1) env.nowAbs ≤ cfg.minutesBefore ∧
  cfg.minutesBefore - cfg.windowMinutes ≤ diffInMinutes (meetingAbs m1) env.nowAbs ∧
  m1.flags.sentBeforeReminder = false

instance (cfg : ReminderCfg) (env : TickEnv) (m : Meeting) : Decidable (beforeCond cfg env m) := by
  unfold beforeCond; infer_instance

/-- The Trigger B block of `processMeeting` (scheduler.ts lines
96-130): when the lead-time condition holds, attempt the send; on
success set `sentBeforeReminder` (preserving `sentDayReminder`). -/
def stepBefore (cfg : ReminderCfg) (env : TickEnv) (m1 : Meeting) :
    Meeting × List TriggerEvent :=
  if beforeCond cfg env m1 then
    (if env.sendBeforeOk then { m1 with flags := ⟨m1.flags.sentDayReminder, true⟩ } else m1,
     [TriggerEvent.leadTime])
  else (m1, [])

/-- `processMeeting` (scheduler.ts lines 31-140): bail out when there
is no Redis client or the customer is opted out; otherwise evaluate
Trigger A (day-of) and then Trigger B (lead-time) on the meeting as
left by Trigger A. Returns the meeting as mutated in memory and the
list of send attempts. -/
def processMeeting (cfg : ReminderCfg) (env : TickEnv) (meeting : Meeting) :
    Meeting × List TriggerEvent :=
  if ¬env.redisConn then (meeting, [])
  else if env.optedOut then (meeting, [])
  else
    let a := stepDay cfg env meeting
    let b := stepBefore cfg env a.1
    (b.1, a.2 ++ b.2)

/-- One scheduler tick for one stored meeting: run `processMeeting` on
the value read from Redis and write the mutated meeting back
(`redis.set`) when flags were updated; a failed write leaves the
stored value unchanged. -/
def tickMeeting (cfg : ReminderCfg) (env : TickEnv) (stored : Meeting) :
    Meeting × List TriggerEvent :=
  let r := processMeeting cfg env stored
  (if env.persistOk then r.1 else stored, r.2)

/-- A sequence of scheduler ticks over one stored meeting, threading
the persisted state and collecting all send attempts. -/
def runTicks (cfg : ReminderCfg) : Meeting → List TickEnv → Meeting × List TriggerEvent
  | stored, [] => (stored, [])
  | stored, env :: rest =>
    let r := tickMeeting cfg env stored
    let r2 := runTicks cfg r.1 rest
    (r2.1, r.2 ++ r2.2)

/-- Confidence level of an opt-out detection. -/
inductive Confidence
  | high
  | medium
  | low
deriving Repr, DecidableEq

/-- Result of `detectOptOut(text)`. -/
structure OptOutDetection where
  isOptOut : Bool
  confidence : Confidence
  detectedPhrase : Option String
deriving Repr, DecidableEq

/-- An observable effect of the opt-out phase of `processMessage`:
deleting the OptOutStatus record (`clearOptOut`), writing a new one
(`setOptOut`), or sending the opt-out acknowledgment reply. -/
inductive OptOutEffect
  | clearRecord
  | setRecord (reason : Option String)
  | sendAck
deriving Repr, DecidableEq

/-- The opt-out phase of `processMessage` (webhook handler, lines
294-331): step 1 deletes the OptOutStatus record when the sender is
currently opted out; step 2 runs `detectOptOut` on the message's text
(when there is text) and, on a non-low-confidence opt-out, writes the
record back, sends the acknowledgment and short-circuits. Returns the
final opted-out state, the ordered trace of effects, and whether
processing short-circuited. -/
def processMessage (optedOut : Bool) (messageText : Option String)
    (detect : String → OptOutDetection) : Bool × List OptOutEffect × Bool :=
  let ops0 : List OptOutEffect := if optedOut then [OptOutEffect.clearRecord] else []
  match messageText with
  | some text =>
    let d := detect text
    if d.isOptOut = true ∧ d.confidence ≠ Confidence.low then
      (true, ops0 ++ [OptOutEffect.setRecord d.detectedPhrase, OptOutEffect.sendAck], true)
    else (false, ops0, false)
  | none => (false, ops0, false)

/-- Outcome of the `redis.get` inside `isOptedOut`: the call throws,
the key is absent, or data was returned — where `parsed = none` models
malformed stored data (`JSON.parse` throws) and `parsed = some u`
models a record whose `unsubscribed` field is `u`. -/
inductive OptOutReadResult
  | readError
  | absent
  | value (parsed : Option Bool)
deriving Repr, DecidableEq

/-- Environment of one `isOptedOut` call: whether `getRedis()` returns
a client, the `config.redisEnabled` flag, and the read's outcome. -/
structure OptOutEnv where
  redisConn : Bool
  redisEnabled : Bool
  readResult : OptOutReadResult
deriving Repr, DecidableEq

/-- `isOptedOut` (optOutManager.ts lines 20-39): false when Redis is
disabled or absent; false when the key is absent; false when the read
throws or the stored data is malformed (the catch block); otherwise
the stored `unsubscribed` field. -/
def isOptedOut (env : OptOutEnv) : Bool :=
  if ¬env.redisConn ∨ env.redisEnabled = false then false
  else
    match env.readResult with
    | OptOutReadResult.readError => false
    | OptOutReadResult.absent => false
    | OptOutReadResult.value none => false
    | OptOutReadResult.value (some u) => u

/-- Outcome of one HTTP send attempt: success, a 429 rate-limit error,
or any other failure (a non-success response body or a non-429
error). -/
inductive SendOutcome
  | success
  | fail429
  | failOther
deriving Repr, DecidableEq

/-- `MAX_RETRIES` in `sendTextMessage`. -/
def maxRetries : Nat := 3

/-- `RETRY_DELAY_MS` in `sendTextMessage`. -/
def retryDelayMs : Nat := 5000

/-- The recursion of `sendTextMessage` (sendMessage.ts lines 18-75),
with the outcome of the i-th attempt given by `attempt i`. The first
argument of the recursion is `retryCount`, the second the remaining
retry budget (`MAX_RETRIES - retryCount`), so the `retryCount <
MAX_RETRIES` guard becomes a positive budget. On a 429 within budget
it waits `RETRY_DELAY_MS * (retryCount + 1)` and recurses; any other
failure, or an exhausted budget, returns false at once. Returns the
overall result, the number of attempts made, and the list of
inter-attempt retry delays in ms. -/
def sendAttempts (attempt : Nat → SendOutcome) : Nat → Nat → Bool × Nat × List Nat
  | retryCount, budget =>
    match attempt retryCount, budget with
    | SendOutcome.success, _ => (true, 1, [])
    | SendOutcome.failOther, _ => (false, 1, [])
    | SendOutcome.fail429, 0 => (false, 1, [])
    | SendOutcome.fail429, b + 1 =>
      let d := retryDelayMs * (retryCount + 1)
      let r := sendAttempts attempt (retryCount + 1) b
      (r.1, r.2.1 + 1, d :: r.2.2)

/-- `sendTextMessage(to, text)` with the default `retryCount = 0`. -/
def sendTextMessage (attempt : Nat → SendOutcome) : Bool × Nat × List Nat :=
  sendAttempts attempt 0 maxRetries

/-- `MESSAGE_CACHE_TTL` (60 s) in the webhook handler. -/
def messageCacheTtl : Nat := 60000

/-- `MAX_PROCESSED_MESSAGES` (10,000) in the webhook handler. -/
def maxProcessedMessages : Nat := 10000

/-- The inbound dedup state: `ids` is the `processedMessages` Set,
`timers` the pending `setTimeout` deletions (id, fire instant in ms).
Coarse clears empty the Set but leave already-scheduled timeouts
pending, exactly as in the source. -/
structure DedupState where
  ids : List String
  timers : List (String × Nat)
deriving Repr, DecidableEq

/-- All `setTimeout` deletions due by instant `t` fire: each removes
its id from the Set and is dropped from the pending list. -/
def fireTimers (t : Nat) (s : DedupState) : DedupState :=
  ⟨s.ids.filter (fun id => ¬ s.timers.any (fun tm => tm.2 ≤ t ∧ tm.1 = id)),
   s.timers.filter (fun tm => t < tm.2)⟩

/-- `cleanupProcessedMessages` (webhook handler lines 222-232): when
the Set has reached the cap, clear it entirely. -/
def cleanupProcessedMessages (s : DedupState) : DedupState :=
  if s.ids.length ≥ maxProcessedMessages then { s with ids := [] } else s

/-- The dedup admission step of `processWebhook` (webhook handler
lines 475-491) at instant `t`: due timeouts have fired; a present id
is rejected; otherwise run the cap cleanup, add the id, and schedule
its TTL deletion. -/
def admitOnce (t : Nat) (id : String) (s : DedupState) : Bool × DedupState :=
  let s1 := fireTimers t s
  if id ∈ s1.ids then (false, s1)
  else
    let s2 := cleanupProcessedMessages s1
    (true, ⟨s2.ids ++ [id], s2.timers ++ [(id, t + messageCacheTtl)]⟩)

/-- An event against the dedup cache: an admission attempt at instant
`t`, or the unconditional hourly `processedMessages.clear()`. -/
inductive DedupEvent
  | arrival (t : Nat) (id : String)
  | hourlyClear
deriving Repr, DecidableEq

/-- Run a sequence of dedup events, collecting each admission's
result. -/
def runDedup : DedupState → List DedupEvent → List Bool × DedupState
  | s, [] => ([], s)
  | s, DedupEvent.arrival t id :: rest =>
    let r := admitOnce t id s
    let r2 := runDedup r.2 rest
    (r.1 :: r2.1, r2.2)
  | s, DedupEvent.hourlyClear :: rest => runDedup { s with ids := [] } rest

/-! Helper lemmas about the history store. -/

theorem trimHistory_eq_lastN (maxH : Nat) (h : List ChatMessage) :
    trimHistory maxH h = lastN maxH h := by
  unfold trimHistory lastN
  split
  · rfl
  · rename_i hle
    have hz : h.length - maxH = 0 := by omega
    rw [hz, List.drop_zero]

theorem lastN_lastN_append (k : Nat) (ms : List ChatMessage) (m : ChatMessage) :
    lastN k (lastN k ms ++ [m]) = lastN k (ms ++ [m]) := by
  unfold lastN
  by_cases hk : ms.length ≤ k
  · have hz : ms.length - k = 0 := by omega
    rw [hz, List.drop_zero]
  · push_neg at hk
    rcases Nat.eq_zero_or_pos k with hk0 | hk0
    · subst hk0
      simp [List.drop_length]
    · have hlen : (ms.drop (ms.length - k)).length = k := by
        rw [List.length_drop]; omega
      have hlen2 : (ms.drop (ms.length - k) ++ [m]).length - k = 1 := by
        simp [List.length_append, List.length_drop]; omega
      have hlen3 : (ms ++ [m]).length - k = ms.length + 1 - k := by
        simp [List.length_append]
      have e1 : (ms.drop (ms.length - k) ++ [m]).drop 1 =
          (ms.drop (ms.length - k)).drop 1 ++ [m] :=
        List.drop_append_of_le_length (by rw [hlen]; omega)
      have e2 : (ms ++ [m]).drop (ms.length + 1 - k) =
          ms.drop (ms.length + 1 - k) ++ [m] :=
        List.drop_append_of_le_length (by omega)
      rw [hlen2, hlen3, e1, e2, List.drop_drop]
      congr 2
      omega

theorem addToHistory_goodFault (maxH : Nat) (s : UserStore) (m : ChatMessage) :
    addToHistory maxH goodFault s m =
      ({ s with redisVal := some (trimHistory maxH (s.redisVal.getD [] ++ [m])) },
       ⟨true, 0⟩) := rfl

theorem addToHistory_noConnFault (maxH : Nat) (s : UserStore) (m : ChatMessage) :
    addToHistory maxH noConnFault s m =
      ({ s with memVal := some (trimHistory maxH (s.memVal.getD [] ++ [m])) },
       ⟨false, 1⟩) := rfl

theorem runAppends_goodFault (maxH : Nat) (ms : List ChatMessage) :
    ∀ (s : UserStore),
      (runAppends maxH s (ms.map fun m => (goodFault, m))).1.memVal = s.memVal ∧
      ∀ o ∈ (runAppends maxH s (ms.map fun m => (goodFault, m))).2,
        o = AddOutcome.mk true 0 := by
  induction ms with
  | nil => intro s; exact ⟨rfl, by simp [runAppends]⟩
  | cons m ms ih =>
    intro s
    simp only [List.map_cons, runAppends, addToHistory_goodFault]
    refine ⟨(ih _).1, ?_⟩
    intro o ho
    rcases List.mem_cons.mp ho with h | h
    · exact h
    · exact (ih _).2 o h

theorem runAppends_noConnFault (maxH : Nat) (ms : List ChatMessage) :
    ∀ (s : UserStore),
      (runAppends maxH s (ms.map fun m => (noConnFault, m))).1.redisVal = s.redisVal ∧
      ∀ o ∈ (runAppends maxH s (ms.map fun m => (noConnFault, m))).2,
        o = AddOutcome.mk false 1 := by
  induction ms with
  | nil => intro s; exact ⟨rfl, by simp [runAppends]⟩
  | cons m ms ih =>
    intro s
    simp only [List.map_cons, runAppends, addToHistory_noConnFault]
    refine ⟨(ih _).1, ?_⟩
    intro o ho
    rcases List.mem_cons.mp ho with h | h
    · exact h
    · exact (ih _).2 o h

/-- Sample stored message of a previous turn. -/
def msgPrev : ChatMessage := ⟨"user", "hello", 1⟩

/-- Sample message appended during the current turn. -/
def msgNew : ChatMessage := ⟨"assistant", "reply", 2⟩

/-- Store state before the turn: one message persisted in Redis, no
in-memory fallback entry. -/
def storeBefore : UserStore := ⟨some [msgPrev], none⟩

/-- C1 counterexample: with one prior message persisted in Redis, a
turn whose read is served by Redis but whose `redis.setex` then throws
stores its message in the in-process fallback map instead — the turn
lands partially in the persistent store and partially in the fallback
map, against the claimed invariant. -/
theorem c1_turn_split_counterexample :
    (getHistory setFailFault storeBefore).2 = Backend.redis ∧
    (addToHistory 40 setFailFault storeBefore msgNew).2.toRedis = false ∧
    (addToHistory 40 setFailFault storeBefore msgNew).1 =
      { redisVal := some [msgPrev], memVal := some [msgNew] } :=
  ⟨rfl, rfl, rfl⟩

/-- C1 (amended): the invariant holds only when the backing store's
availability is uniform across the turn. If every operation of the
turn succeeds against a live Redis connection, then the read is served
by Redis, every append is persisted to Redis with no copy pushed to
the fallback map, and the fallback entry is untouched; if there is no
Redis client for the whole turn, the read and every append use only
the fallback map and the Redis value is untouched. A mid-turn store
failure can instead split the turn across the two stores. -/
theorem c1_uniform_store_turn (maxH : Nat) (s : UserStore) (ms : List ChatMessage) :
    ((getHistory goodFault s).2 = Backend.redis ∧
      (∀ o ∈ (runAppends maxH s (ms.map fun m => (goodFault, m))).2,
        o = AddOutcome.mk true 0) ∧
      (runAppends maxH s (ms.map fun m => (goodFault, m))).1.memVal = s.memVal) ∧
    ((getHistory noConnFault s).2 = Backend.mem ∧
      (∀ o ∈ (runAppends maxH s (ms.map fun m => (noConnFault, m))).2,
        o = AddOutcome.mk false 1) ∧
      (runAppends maxH s (ms.map fun m => (noConnFault, m))).1.redisVal = s.redisVal) :=
  ⟨⟨rfl, (runAppends_goodFault maxH ms s).2, (runAppends_goodFault maxH ms s).1⟩,
   ⟨rfl, (runAppends_noConnFault maxH ms s).2, (runAppends_noConnFault maxH ms s).1⟩⟩

/-- C1 witness: the amended statement evaluated at a concrete store
and a concrete one-message turn, with the membership hypothesis
discharged at the turn's single append outcome. -/
theorem c1_uniform_store_turn_witness :
    (addToHistory 40 goodFault storeBefore msgNew).2 = AddOutcome.mk true 0 ∧
    (runAppends 40 storeBefore ([msgNew].map fun m => (goodFault, m))).1.memVal =
      storeBefore.memVal :=
  ⟨(c1_uniform_store_turn 40 storeBefore [msgNew]).1.2.1
      (addToHistory 40 goodFault storeBefore msgNew).2 (by simp [runAppends]),
   (c1_uniform_store_turn 40 storeBefore [msgNew]).1.2.2⟩

/-- C5: for a sender who is currently opted out, `processMessage`
deletes the OptOutStatus record as its first store effect, before
opt-out detection runs on the same message's text; when the detection
then reports a non-low-confidence opt-out, the same message re-creates
the record (re-engage then immediately re-opt-out), and otherwise the
sender ends the message subscribed. -/
theorem c5_reengage_before_detection (text : String)
    (detect : String → OptOutDetection) :
    (processMessage true (some text) detect).2.1.head? = some OptOutEffect.clearRecord ∧
    (((detect text).isOptOut = true ∧ (detect text).confidence ≠ Confidence.low) →
      processMessage true (some text) detect =
        (true,
         [OptOutEffect.clearRecord, OptOutEffect.setRecord (detect text).detectedPhrase,
          OptOutEffect.sendAck],
         true)) ∧
    (¬((detect text).isOptOut = true ∧ (detect text).confidence ≠ Confidence.low) →
      processMessage true (some text) detect = (false, [OptOutEffect.clearRecord], false)) ∧
    (∀ d : String → OptOutDetection,
      processMessage true none d = (false, [OptOutEffect.clearRecord], false)) := by
  by_cases hd : (detect text).isOptOut = true ∧ (detect text).confidence ≠ Confidence.low
  · refine ⟨?_, fun _ => ?_, fun h => absurd hd h, fun d => rfl⟩ <;>
      simp [processMessage, hd]
  · refine ⟨?_, fun h => absurd h hd, fun _ => ?_, fun d => rfl⟩ <;>
      simp [processMessage, hd]

/-- C5 witness: a concrete detector that flags the message with high
confidence re-creates the record right after deleting it. -/
theorem c5_reengage_before_detection_witness :
    processMessage true (some "stop")
        (fun _ => ⟨true, Confidence.high, some "stop"⟩) =
      (true,
       [OptOutEffect.clearRecord, OptOutEffect.setRecord (some "stop"),
        OptOutEffect.sendAck],
       true) :=
  (c5_reengage_before_detection "stop"
      (fun _ => ⟨true, Confidence.high, some "stop"⟩)).2.1 ⟨rfl, by decide⟩

/-- C9: when the AI completion returns null during a batch flush,
`flushConversation` leaves both backing stores untouched — none of the
batch's user messages and no assistant message is appended — and the
only outbound effect is the single apologetic fallback text. -/
theorem c9_null_response_no_history_write (maxH : Nat) (f : StoreFault) (s : UserStore)
    (batch : List NormalizedIncoming) (nowTs : Nat) :
    flushConversation maxH f s batch none nowTs = (s, [fallbackResponse]) := rfl

/-- C10: `isOptedOut` returns false whenever the persistent store is
disabled or unavailable, the key is absent, the read throws, or the
stored data is malformed — a storage failure never yields true. -/
theorem c10_store_failure_not_opted_out (env : OptOutEnv)
    (h : env.redisConn = false ∨ env.redisEnabled = false ∨
      env.readResult = OptOutReadResult.readError ∨
      env.readResult = OptOutReadResult.absent ∨
      env.readResult = OptOutReadResult.value none) :
    isOptedOut env = false := by
  rcases env with ⟨c, e, r⟩
  cases c <;> cases e <;>
    rcases h with h | h | h | h | h <;>
      simp_all [isOptedOut]

/-- C10 witness: a read error against an otherwise enabled store
yields false. -/
theorem c10_store_failure_not_opted_out_witness :
    isOptedOut ⟨true, true, OptOutReadResult.readError⟩ = false :=
  c10_store_failure_not_opted_out ⟨true, true, OptOutReadResult.readError⟩
    (Or.inr (Or.inr (Or.inl rfl)))

theorem runAppends_good_redis (maxH : Nat) (ms : List ChatMessage) :
    ∀ (h : List ChatMessage) (mv : Option (List ChatMessage)),
      (runAppends maxH ⟨some (lastN maxH h), mv⟩ (ms.map fun m => (goodFault, m))).1 =
        ⟨some (lastN maxH (h ++ ms)), mv⟩ := by
  induction ms with
  | nil => intro h mv; simp [runAppends]
  | cons m ms ih =>
    intro h mv
    simp only [List.map_cons, runAppends, addToHistory_goodFault, Option.getD_some]
    rw [trimHistory_eq_lastN, lastN_lastN_append]
    rw [ih (h ++ [m]) mv]
    simp

/-- C6: appending more than `max` messages through `addToHistory` (all
against a healthy Redis) leaves exactly the most recent `max` messages
readable, in original arrival order — the result of a subsequent read
is precisely the original sequence with its oldest `N - max` messages
dropped. -/
theorem c6_history_keeps_last_max (maxH : Nat) (msgs : List ChatMessage)
    (hlen : maxH < msgs.length) :
    (getHistory goodFault
        (runAppends maxH ⟨none, none⟩ (msgs.map fun m => (goodFault, m))).1).1 =
      msgs.drop (msgs.length - maxH) ∧
    (getHistory goodFault
        (runAppends maxH ⟨none, none⟩ (msgs.map fun m => (goodFault, m))).1).1.length =
      maxH := by
  cases msgs with
  | nil => simp at hlen
  | cons m ms =>
    have hstate :
        (runAppends maxH ⟨none, none⟩ ((m :: ms).map fun x => (goodFault, x))).1 =
          ⟨some (lastN maxH (m :: ms)), none⟩ := by
      simp only [List.map_cons, runAppends, addToHistory_goodFault, Option.getD_none,
        List.nil_append]
      rw [trimHistory_eq_lastN, runAppends_good_redis maxH ms [m] none]
      simp
    rw [hstate]
    refine ⟨by simp [getHistory, goodFault, lastN], ?_⟩
    simp only [getHistory, goodFault, lastN, List.length_drop]
    simp only [List.length_cons] at hlen ⊢
    simp
    omega

/-- C6 witness: with `max = 3` and five appended messages, the read
returns the last three. -/
theorem c6_history_keeps_last_max_witness :
    3 < ([⟨"user", "a", 1⟩, ⟨"user", "b", 2⟩, ⟨"user", "c", 3⟩, ⟨"user", "d", 4⟩,
          ⟨"user", "e", 5⟩] : List ChatMessage).length ∧
    (getHistory goodFault
        (runAppends 3 ⟨none, none⟩
          (([⟨"user", "a", 1⟩, ⟨"user", "b", 2⟩, ⟨"user", "c", 3⟩, ⟨"user", "d", 4⟩,
             ⟨"user", "e", 5⟩] : List ChatMessage).map fun m => (goodFault, m))).1).1 =
      ([⟨"user", "a", 1⟩, ⟨"user", "b", 2⟩, ⟨"user", "c", 3⟩, ⟨"user", "d", 4⟩,
        ⟨"user", "e", 5⟩] : List ChatMessage).drop
        (([⟨"user", "a", 1⟩, ⟨"user", "b", 2⟩, ⟨"user", "c", 3⟩, ⟨"user", "d", 4⟩,
           ⟨"user", "e", 5⟩] : List ChatMessage).length - 3) :=
  ⟨by decide,
   (c6_history_keeps_last_max 3
       [⟨"user", "a", 1⟩, ⟨"user", "b", 2⟩, ⟨"user", "c", 3⟩, ⟨"user", "d", 4⟩,
        ⟨"user", "e", 5⟩] (by decide)).1⟩

/-! Helper lemmas about the reminder scheduler. -/

theorem processMeeting_eq (cfg : ReminderCfg) (env : TickEnv) (m : Meeting) :
    processMeeting cfg env m =
      if ¬env.redisConn then (m, [])
      else if env.optedOut then (m, [])
      else ((stepBefore cfg env (stepDay cfg env m).1).1,
            (stepDay cfg env m).2 ++ (stepBefore cfg env (stepDay cfg env m).1).2) := rfl

theorem stepDay_preserves_beforeFlag (cfg : ReminderCfg) (env : TickEnv) (m : Meeting) :
    (stepDay cfg env m).1.flags.sentBeforeReminder = m.flags.sentBeforeReminder := by
  unfold stepDay; split_ifs <;> rfl

theorem stepDay_preserves_schedule (cfg : ReminderCfg) (env : TickEnv) (m : Meeting) :
    (stepDay cfg env m).1.date = m.date ∧ (stepDay cfg env m).1.timeMin = m.timeMin := by
  unfold stepDay; split_ifs <;> exact ⟨rfl, rfl⟩

theorem meetingAbs_stepDay (cfg : ReminderCfg) (env : TickEnv) (m : Meeting) :
    meetingAbs (stepDay cfg env m).1 = meetingAbs m := by
  unfold meetingAbs
  rw [(stepDay_preserves_schedule cfg env m).1, (stepDay_preserves_schedule cfg env m).2]

theorem stepDay_no_leadTime (cfg : ReminderCfg) (env : TickEnv) (m : Meeting) :
    TriggerEvent.leadTime ∉ (stepDay cfg env m).2 := by
  unfold stepDay; split_ifs <;> simp

theorem stepDay_of_sentDay (cfg : ReminderCfg) (env : TickEnv) (m : Meeting)
    (h : m.flags.sentDayReminder = true) : stepDay cfg env m = (m, []) := by
  have hn : ¬ dayCond cfg env m := by
    rintro ⟨-, -, hfl⟩
    rw [h] at hfl
    exact Bool.noConfusion hfl
  unfold stepDay
  rw [if_neg hn]

theorem stepDay_mem_dayOf (cfg : ReminderCfg) (env : TickEnv) (m : Meeting) :
    TriggerEvent.dayOf ∈ (stepDay cfg env m).2 ↔ dayCond cfg env m := by
  unfold stepDay; split_ifs with h <;> simp [h]

theorem stepBefore_preserves_dayFlag (cfg : ReminderCfg) (env : TickEnv) (m : Meeting) :
    (stepBefore cfg env m).1.flags.sentDayReminder = m.flags.sentDayReminder := by
  unfold stepBefore; split_ifs <;> rfl

theorem stepBefore_no_dayOf (cfg : ReminderCfg) (env : TickEnv) (m : Meeting) :
    TriggerEvent.dayOf ∉ (stepBefore cfg env m).2 := by
  unfold stepBefore; split_ifs <;> simp

theorem stepBefore_of_sentBefore (cfg : ReminderCfg) (env : TickEnv) (m : Meeting)
    (h : m.flags.sentBeforeReminder = true) : stepBefore cfg env m = (m, []) := by
  have hn : ¬ beforeCond cfg env m := by
    rintro ⟨-, -, hfl⟩
    rw [h] at hfl
    exact Bool.noConfusion hfl
  unfold stepBefore
  rw [if_neg hn]

theorem stepBefore_mem_leadTime (cfg : ReminderCfg) (env : TickEnv) (m : Meeting) :
    TriggerEvent.leadTime ∈ (stepBefore cfg env m).2 ↔ beforeCond cfg env m := by
  unfold stepBefore; split_ifs with h <;> simp [h]

theorem processMeeting_result_cases (cfg : ReminderCfg) (env : TickEnv) (m : Meeting) :
    processMeeting cfg env m = (m, []) ∨
    processMeeting cfg env m =
      ((stepBefore cfg env (stepDay cfg env m).1).1,
       (stepDay cfg env m).2 ++ (stepBefore cfg env (stepDay cfg env m).1).2) := by
  rw [processMeeting_eq]
  split_ifs <;> simp

theorem processMeeting_active (cfg : ReminderCfg) (env : TickEnv) (m : Meeting)
    (hconn : env.redisConn = true) (hopt : env.optedOut = false) :
    processMeeting cfg env m =
      ((stepBefore cfg env (stepDay cfg env m).1).1,
       (stepDay cfg env m).2 ++ (stepBefore cfg env (stepDay cfg env m).1).2) := by
  rw [processMeeting_eq, hconn, hopt]
  simp

theorem tickMeeting_sentDay (cfg : ReminderCfg) (env : TickEnv) (m : Meeting)
    (h : m.flags.sentDayReminder = true) :
    (tickMeeting cfg env m).1.flags.sentDayReminder = true ∧
    TriggerEvent.dayOf ∉ (tickMeeting cfg env m).2 := by
  unfold tickMeeting
  rcases processMeeting_result_cases cfg env m with hr | hr
  · rw [hr]
    constructor
    · split <;> exact h
    · simp
  · rw [hr, stepDay_of_sentDay cfg env m h]
    constructor
    · simp only
      split
      · rw [stepBefore_preserves_dayFlag]; exact h
      · exact h
    · simp [stepBefore_no_dayOf]

theorem tickMeeting_sentBefore (cfg : ReminderCfg) (env : TickEnv) (m : Meeting)
    (h : m.flags.sentBeforeReminder = true) :
    (tickMeeting cfg env m).1.flags.sentBeforeReminder = true ∧
    TriggerEvent.leadTime ∉ (tickMeeting cfg env m).2 := by
  unfold tickMeeting
  rcases processMeeting_result_cases cfg env m with hr | hr
  · rw [hr]
    constructor
    · split <;> exact h
    · simp
  · have hpre : (stepDay cfg env m).1.flags.sentBeforeReminder = true := by
      rw [stepDay_preserves_beforeFlag]; exact h
    rw [hr, stepBefore_of_sentBefore cfg env _ hpre]
    constructor
    · simp only
      split
      · exact hpre
      · exact h
    · simp [stepDay_no_leadTime]

/-- C2: once a reminder flag of a scheduled item is true in the store,
it stays true across any sequence of further scheduler ticks and the
corresponding reminder is never attempted again — in particular a set
`sentDayReminder` suppresses the day-of reminder on all future ticks,
and likewise for `sentBeforeReminder`, whatever each tick's
environment (opt-out state, send results, persistence results). -/
theorem c2_flags_monotone (cfg : ReminderCfg) (m : Meeting) (envs : List TickEnv) :
    (m.flags.sentDayReminder = true →
      (runTicks cfg m envs).1.flags.sentDayReminder = true ∧
      TriggerEvent.dayOf ∉ (runTicks cfg m envs).2) ∧
    (m.flags.sentBeforeReminder = true →
      (runTicks cfg m envs).1.flags.sentBeforeReminder = true ∧
      TriggerEvent.leadTime ∉ (runTicks cfg m envs).2) := by
  induction envs generalizing m with
  | nil => simp [runTicks]
  | cons env envs ih =>
    constructor
    · intro h
      have t := tickMeeting_sentDay cfg env m h
      have r := (ih (tickMeeting cfg env m).1).1 t.1
      simp only [runTicks]
      refine ⟨r.1, ?_⟩
      simp only [List.mem_append, not_or]
      exact ⟨t.2, r.2⟩
    · intro h
      have t := tickMeeting_sentBefore cfg env m h
      have r := (ih (tickMeeting cfg env m).1).2 t.1
      simp only [runTicks]
      refine ⟨r.1, ?_⟩
      simp only [List.mem_append, not_or]
      exact ⟨t.2, r.2⟩

/-- C2 witness: an item with both flags set keeps them set and gets no
day-of attempt across a concrete tick. -/
theorem c2_flags_monotone_witness :
    (runTicks defaultReminderCfg ⟨1, 600, ⟨true, true⟩⟩
        [⟨true, false, 1996, true, true, true⟩]).1.flags.sentDayReminder = true ∧
    TriggerEvent.dayOf ∉ (runTicks defaultReminderCfg ⟨1, 600, ⟨true, true⟩⟩
        [⟨true, false, 1996, true, true, true⟩]).2 :=
  (c2_flags_monotone defaultReminderCfg ⟨1, 600, ⟨true, true⟩⟩
      [⟨true, false, 1996, true, true, true⟩]).1 rfl

/-- C3: with a Redis client and a non-opted-out customer, Trigger B is
attempted exactly when the signed difference in minutes from now to
the item's scheduled moment lies in the inclusive range
`[minutesBefore - window, minutesBefore]` and `sentBeforeReminder` is
false; with the default 45/3 configuration a difference of 44 minutes
fires and a difference of 41 minutes does not. -/
theorem c3_leadtime_trigger_window (cfg : ReminderCfg) (env : TickEnv) (m : Meeting)
    (hconn : env.redisConn = true) (hopt : env.optedOut = false) :
    (TriggerEvent.leadTime ∈ (processMeeting cfg env m).2 ↔
      (diffInMinutes (meetingAbs m) env.nowAbs ≤ cfg.minutesBefore ∧
       cfg.minutesBefore - cfg.windowMinutes ≤ diffInMinutes (meetingAbs m) env.nowAbs ∧
       m.flags.sentBeforeReminder = false)) ∧
    TriggerEvent.leadTime ∈
      (processMeeting defaultReminderCfg ⟨true, false, 1996, true, true, true⟩
        ⟨1, 600, ⟨false, false⟩⟩).2 ∧
    TriggerEvent.leadTime ∉
      (processMeeting defaultReminderCfg ⟨true, false, 1999, true, true, true⟩
        ⟨1, 600, ⟨false, false⟩⟩).2 := by
  refine ⟨?_, by decide, by decide⟩
  rw [processMeeting_active cfg env m hconn hopt]
  simp only [List.mem_append]
  have hA := stepDay_no_leadTime cfg env m
  have hB := stepBefore_mem_leadTime cfg env (stepDay cfg env m).1
  have hC : beforeCond cfg env (stepDay cfg env m).1 ↔
      (diffInMinutes (meetingAbs m) env.nowAbs ≤ cfg.minutesBefore ∧
       cfg.minutesBefore - cfg.windowMinutes ≤ diffInMinutes (meetingAbs m) env.nowAbs ∧
       m.flags.sentBeforeReminder = false) := by
    unfold beforeCond
    rw [meetingAbs_stepDay, stepDay_preserves_beforeFlag]
  constructor
  · rintro (hx | hx)
    · exact absurd hx hA
    · exact hC.mp (hB.mp hx)
  · intro hx
    exact Or.inr (hB.mpr (hC.mpr hx))

/-- C3 witness: the general window characterization applied at a
concrete environment 44 minutes before a concrete meeting. -/
theorem c3_leadtime_trigger_window_witness :
    TriggerEvent.leadTime ∈
      (processMeeting defaultReminderCfg ⟨true, false, 1996, true, true, true⟩
        ⟨1, 600, ⟨false, false⟩⟩).2 :=
  ((c3_leadtime_trigger_window defaultReminderCfg ⟨true, false, 1996, true, true, true⟩
      ⟨1, 600, ⟨false, false⟩⟩ rfl rfl).1).mpr (by decide)

/-- C4: with a Redis client and a non-opted-out customer, Trigger A is
attempted exactly when today equals the item's date, the absolute
difference in minutes between now and the configured target
time-of-day is at most the window, and `sentDayReminder` is false;
with target 09:00 and window 3 a current time of 09:02 fires and one
of 09:04 does not. -/
theorem c4_dayof_trigger_window (cfg : ReminderCfg) (env : TickEnv) (m : Meeting)
    (hconn : env.redisConn = true) (hopt : env.optedOut = false) :
    (TriggerEvent.dayOf ∈ (processMeeting cfg env m).2 ↔
      (calendarDay env.nowAbs = m.date ∧
       |diffInMinutes env.nowAbs (m.date * 1440 + cfg.dayOfMeetingTimeMin)| ≤
         cfg.windowMinutes ∧
       m.flags.sentDayReminder = false)) ∧
    TriggerEvent.dayOf ∈
      (processMeeting defaultReminderCfg ⟨true, false, 7742, true, true, true⟩
        ⟨5, 660, ⟨false, false⟩⟩).2 ∧
    TriggerEvent.dayOf ∉
      (processMeeting defaultReminderCfg ⟨true, false, 7744, true, true, true⟩
        ⟨5, 660, ⟨false, false⟩⟩).2 := by
  refine ⟨?_, by decide, by decide⟩
  rw [processMeeting_active cfg env m hconn hopt]
  simp only [List.mem_append]
  have hA := stepDay_mem_dayOf cfg env m
  have hB := stepBefore_no_dayOf cfg env (stepDay cfg env m).1
  constructor
  · rintro (hx | hx)
    · exact hA.mp hx
    · exact absurd hx hB
  · intro hx
    exact Or.inl (hA.mpr hx)

/-- C4 witness: the general characterization applied at a concrete
environment two minutes after the 09:00 target on the meeting's day. -/
theorem c4_dayof_trigger_window_witness :
    TriggerEvent.dayOf ∈
      (processMeeting defaultReminderCfg ⟨true, false, 7742, true, true, true⟩
        ⟨5, 660, ⟨false, false⟩⟩).2 :=
  ((c4_dayof_trigger_window defaultReminderCfg ⟨true, false, 7742, true, true, true⟩
      ⟨5, 660, ⟨false, false⟩⟩ rfl rfl).1).mpr (by decide)


theorem sendAttempts_after_429s (f : Nat → SendOutcome) :
    ∀ (k rc budget : Nat), k ≤ budget →
      (∀ i, i < k → f (rc + i) = SendOutcome.fail429) →
      ((f (rc + k) = SendOutcome.success →
        sendAttempts f rc budget =
          (true, k + 1, (List.range k).map fun i => retryDelayMs * (rc + i + 1))) ∧
       (f (rc + k) = SendOutcome.failOther →
        sendAttempts f rc budget =
          (false, k + 1, (List.range k).map fun i => retryDelayMs * (rc + i + 1)))) := by
  intro k
  induction k with
  | zero =>
    intro rc budget hb hall
    constructor
    · intro hs
      rw [Nat.add_zero] at hs
      simp [sendAttempts, hs]
    · intro hs
      rw [Nat.add_zero] at hs
      simp [sendAttempts, hs]
  | succ k ih =>
    intro rc budget hb hall
    have h0 : f rc = SendOutcome.fail429 := by
      have h := hall 0 (Nat.succ_pos k)
      rwa [Nat.add_zero] at h
    cases budget with
    | zero => omega
    | succ b =>
      have hb2 : k ≤ b := Nat.lt_succ_iff.mp hb
      have hall2 : ∀ i, i < k → f (rc + 1 + i) = SendOutcome.fail429 := by
        intro i hi
        have h := hall (i + 1) (by omega)
        rwa [show rc + (i + 1) = rc + 1 + i by omega] at h
      have hidx : rc + 1 + k = rc + (k + 1) := by omega
      obtain ⟨ihS, ihF⟩ := ih (rc + 1) b hb2 hall2
      have hfun : ((fun i => retryDelayMs * (rc + i + 1)) ∘ Nat.succ) =
          fun i => retryDelayMs * (rc + 1 + i + 1) := by
        funext i
        simp only [Function.comp_apply]
        congr 1
        omega
      have hdelays :
          retryDelayMs * (rc + 1) ::
              ((List.range k).map fun i => retryDelayMs * (rc + 1 + i + 1)) =
            (List.range (k + 1)).map fun i => retryDelayMs * (rc + i + 1) := by
        rw [List.range_succ_eq_map, List.map_cons, List.map_map, hfun]
      constructor
      · intro hs
        have hrec := ihS (by rw [hidx]; exact hs)
        simp only [sendAttempts, h0, hrec]
        rw [← hdelays]
      · intro hs
        have hrec := ihF (by rw [hidx]; exact hs)
        simp only [sendAttempts, h0, hrec]
        rw [← hdelays]

/-- C7: `sendTextMessage` retries only on a 429 failure, up to 3
additional attempts whose inter-attempt delays scale linearly as
`RETRY_DELAY_MS * attemptNumber`; a first-attempt success returns true
with no retry, any non-429 failure (after any run of 429s) returns
false with no further attempts, a 429-to-success transition within the
retry budget returns true, and a 429 on all four attempts returns
false after delays 5000, 10000, 15000 ms. -/
theorem c7_retry_policy :
    (∀ f : Nat → SendOutcome, f 0 = SendOutcome.success →
      sendTextMessage f = (true, 1, [])) ∧
    (∀ f : Nat → SendOutcome, f 0 = SendOutcome.failOther →
      sendTextMessage f = (false, 1, [])) ∧
    (∀ (f : Nat → SendOutcome) (k : Nat), k ≤ maxRetries →
      (∀ i, i < k → f i = SendOutcome.fail429) → f k = SendOutcome.success →
      sendTextMessage f =
        (true, k + 1, (List.range k).map fun i => retryDelayMs * (i + 1))) ∧
    (∀ (f : Nat → SendOutcome) (k : Nat), k ≤ maxRetries →
      (∀ i, i < k → f i = SendOutcome.fail429) → f k = SendOutcome.failOther →
      sendTextMessage f =
        (false, k + 1, (List.range k).map fun i => retryDelayMs * (i + 1))) ∧
    sendTextMessage (fun _ => SendOutcome.fail429) = (false, 4, [5000, 10000, 15000]) := by
  refine ⟨?_, ?_, ?_, ?_, by decide⟩
  · intro f hs
    have h := (sendAttempts_after_429s f 0 0 maxRetries (Nat.zero_le _)
      (fun i hi => absurd hi (Nat.not_lt_zero i))).1 (by simpa using hs)
    simpa [sendTextMessage] using h
  · intro f hs
    have h := (sendAttempts_after_429s f 0 0 maxRetries (Nat.zero_le _)
      (fun i hi => absurd hi (Nat.not_lt_zero i))).2 (by simpa using hs)
    simpa [sendTextMessage] using h
  · intro f k hk hall hsk
    have h := (sendAttempts_after_429s f k 0 maxRetries hk
      (fun i hi => by simpa using hall i hi)).1 (by simpa using hsk)
    simpa [sendTextMessage] using h
  · intro f k hk hall hsk
    have h := (sendAttempts_after_429s f k 0 maxRetries hk
      (fun i hi => by simpa using hall i hi)).2 (by simpa using hsk)
    simpa [sendTextMessage] using h

/-- C7 witness: two 429s followed by a success yield overall success
in three attempts with delays 5000 and 10000 ms. -/
theorem c7_retry_policy_witness :
    (fun i => if i < 2 then SendOutcome.fail429 else SendOutcome.success) 2 =
      SendOutcome.success ∧
    sendTextMessage (fun i => if i < 2 then SendOutcome.fail429 else SendOutcome.success) =
      (true, 2 + 1, (List.range 2).map fun i => retryDelayMs * (i + 1)) :=
  ⟨by decide,
   c7_retry_policy.2.2.1
     (fun i => if i < 2 then SendOutcome.fail429 else SendOutcome.success) 2
     (by decide) (fun i hi => by simp [hi]) (by decide)⟩

/-! Helper lemmas about the dedup cache. -/

theorem cleanupProcessedMessages_timers (st : DedupState) :
    (cleanupProcessedMessages st).timers = st.timers := by
  unfold cleanupProcessedMessages; split_ifs <;> rfl

theorem mem_fireTimers_ids (u : Nat) (st : DedupState) (id : String) :
    id ∈ (fireTimers u st).ids ↔
      id ∈ st.ids ∧ ∀ tm ∈ st.timers, tm.1 = id → u < tm.2 := by
  unfold fireTimers
  rw [List.mem_filter]
  simp only [decide_eq_true_eq, List.any_eq_true, decide_not, Bool.not_eq_true',
    decide_eq_false_iff_not, not_exists, not_and]
  apply and_congr_right
  intro _
  constructor
  · intro hall tm htm heq
    have h := hall tm htm
    by_cases hle : tm.2 ≤ u
    · exact absurd heq (h hle)
    · omega
  · intro hall tm htm hle heq
    have h := hall tm htm heq
    omega

/-- C8: the dedup admission of `processWebhook` admits an id whose
entry is absent (after due timeouts), rejects a repetition of an
admitted id as long as its TTL timeout has not fired, and after a
coarse clear the very same id is re-admitted before its original TTL
has elapsed (the documented weakening): in the concrete run below,
"a" admitted at t = 0 is admitted again at t = 10 after the hourly
clear, although 10 < TTL. -/
theorem c8_dedup_admit_once :
    (∀ (t : Nat) (id : String) (s : DedupState),
      id ∉ (fireTimers t s).ids → (admitOnce t id s).1 = true) ∧
    (∀ (t u : Nat) (id : String) (s : DedupState),
      (∀ tm ∈ s.timers, tm.1 ≠ id) → u < t + messageCacheTtl →
      (admitOnce t id s).1 = true →
      (admitOnce u id (admitOnce t id s).2).1 = false) ∧
    (runDedup ⟨[], []⟩
        [DedupEvent.arrival 0 "a", DedupEvent.hourlyClear, DedupEvent.arrival 10 "a"]).1 =
      [true, true] := by
  refine ⟨?_, ?_, by decide⟩
  · intro t id s h
    simp [admitOnce, h]
  · intro t u id s hno hu ht
    have hmem : id ∉ (fireTimers t s).ids := by
      intro hmem
      simp [admitOnce, hmem] at ht
    have hstate : (admitOnce t id s).2 =
        ⟨(cleanupProcessedMessages (fireTimers t s)).ids ++ [id],
         (cleanupProcessedMessages (fireTimers t s)).timers ++ [(id, t + messageCacheTtl)]⟩ := by
      simp [admitOnce, hmem]
    rw [hstate]
    have hin : id ∈ (fireTimers u
        (⟨(cleanupProcessedMessages (fireTimers t s)).ids ++ [id],
          (cleanupProcessedMessages (fireTimers t s)).timers ++
            [(id, t + messageCacheTtl)]⟩ : DedupState)).ids := by
      rw [mem_fireTimers_ids]
      constructor
      · simp
      · intro tm htm heq
        rcases List.mem_append.mp htm with htm2 | htm2
        · rw [cleanupProcessedMessages_timers] at htm2
          have htm3 : tm ∈ s.timers ∧ t < tm.2 := by simpa [fireTimers] using htm2
          exact absurd heq (hno tm htm3.1)
        · have : tm = (id, t + messageCacheTtl) := by simpa using htm2
          rw [this]
          exact hu
    simp [admitOnce, hin]

/-- C8 witness: the rejection branch applied to a concrete fresh state
and a repetition well inside the TTL. -/
theorem c8_dedup_admit_once_witness :
    (100 < 0 + messageCacheTtl) ∧
    (admitOnce 100 "a" (admitOnce 0 "a" ⟨[], []⟩).2).1 = false :=
  ⟨by decide,
   c8_dedup_admit_once.2.1 0 100 "a" ⟨[], []⟩ (by simp) (by decide) (by decide)⟩

end UiPlaster
